import Mathlib

/-!
Verification development for the MedGamma chat backend.

Text is modelled as `List Char` (Python `str`); the streaming generator of
`routers/chat.py` is modelled as a fold over the list of model output chunks;
external SDK calls (LLM, search engine, HTTP fetch, telephony) are modelled as
oracle parameters, with `Except Unit` results standing for calls that may raise.
-/

/-- Decides whether `p` is a prefix of `s` (character by character). -/
def isPref : List Char → List Char → Bool
  | [], _ => true
  | _ :: _, [] => false
  | a :: as, b :: bs => a == b && isPref as bs

/-- Decides whether `pat` occurs as a contiguous substring of `s`
(Python's `pat in s`). -/
def occursIn (pat : List Char) : List Char → Bool
  | [] => isPref pat []
  | c :: t => isPref pat (c :: t) || occursIn pat t

/-- Worker for `removeAll`: `k` counts characters still to be skipped from a
match already found; at `k = 0` it looks for the next occurrence of `pat`. -/
def removeAllAux (pat : List Char) : Nat → List Char → List Char
  | _, [] => []
  | 0, c :: rest =>
      if isPref pat (c :: rest) then removeAllAux pat (pat.length - 1) rest
      else c :: removeAllAux pat 0 rest
  | k + 1, _ :: rest => removeAllAux pat k rest

/-- Removes every (left-to-right, non-overlapping) occurrence of `pat` from
`s`: Python's `s.replace(pat, "")`. -/
def removeAll (pat s : List Char) : List Char := removeAllAux pat 0 s

/-- Whitespace characters stripped by Python's `str.lstrip()`
(restricted to the ASCII whitespace set). -/
def isPyWs (c : Char) : Bool :=
  c == ' ' || c == '\t' || c == '\n' || c == '\r' || c == Char.ofNat 11 || c == Char.ofNat 12

/-- Python's `s.lstrip()`. -/
def lstrip (s : List Char) : List Char := s.dropWhile isPyWs

/-- The `"[SOS_CALL]"` marker token. -/
def sosCallTok : List Char := ['[', 'S', 'O', 'S', '_', 'C', 'A', 'L', 'L', ']']

/-- The `"[SOS_SMS]"` marker token. -/
def sosSmsTok : List Char := ['[', 'S', 'O', 'S', '_', 'S', 'M', 'S', ']']

/-- The `"[SOS]"` marker token. -/
def sosTok : List Char := ['[', 'S', 'O', 'S', ']']

/-- The token-stripping step of `response_generator` (chat.py line 278):
`buffer.replace("[SOS_CALL]", "").replace("[SOS_SMS]", "").replace("[SOS]", "").lstrip()`. -/
def stripTokens (s : List Char) : List Char :=
  lstrip (removeAll sosTok (removeAll sosSmsTok (removeAll sosCallTok s)))

/-- The flush condition of `response_generator` (chat.py line 276):
`len(buffer) > 15 or "]" in buffer`. -/
def flushCond (b : List Char) : Bool := 15 < b.length || b.contains ']'

/-- State of the streaming `response_generator` in chat.py: the raw
accumulated model output, the cleaned accumulated text, the initial token
buffer, the `checked_for_token` flag, and the chunks yielded so far. -/
structure GenState where
  raw : List Char
  clean : List Char
  buffer : List Char
  checked : Bool
  outs : List (List Char)
deriving DecidableEq

/-- Initial state of `response_generator`. -/
def initGen : GenState := ⟨[], [], [], false, []⟩

/-- One iteration of the `for chunk in llm.stream(...)` loop of
`response_generator` (chat.py lines 267-287). -/
def processChunk (st : GenState) (content : List Char) : GenState :=
  if content = [] then st
  else
    let st1 : GenState := { st with raw := st.raw ++ content }
    if st1.checked then
      { st1 with clean := st1.clean ++ content, outs := st1.outs ++ [content] }
    else
      let buf := st1.buffer ++ content
      if flushCond buf then
        let cb := stripTokens buf
        { st1 with clean := st1.clean ++ cb, buffer := [], checked := true,
                   outs := st1.outs ++ [cb] }
      else
        { st1 with buffer := buf }

/-- The trailing `if buffer:` block of `response_generator`
(chat.py lines 290-293), run after the stream ends. -/
def finishStream (st : GenState) : GenState :=
  if st.buffer = [] then st
  else
    let cb := stripTokens st.buffer
    { st with clean := st.clean ++ cb, buffer := [], outs := st.outs ++ [cb] }

/-- Runs `response_generator` on a whole sequence of model output chunks. -/
def runGenerator (chunks : List (List Char)) : GenState :=
  finishStream (chunks.foldl processChunk initGen)

/-- The text streamed back to the HTTP caller: the concatenation of all
chunks yielded by `response_generator`. -/
def streamedText (chunks : List (List Char)) : List Char :=
  ((runGenerator chunks).outs).flatten

/-- The bot message text persisted to the database at the end of the turn
(chat.py lines 297-303 save `full_response_clean`). -/
def persistedBotText (chunks : List (List Char)) : List Char :=
  (runGenerator chunks).clean

/-- The pydantic `EmergencyRequest` model of `routers/emergency.py`. -/
structure EmergencyRequest where
  reqType : String
  severity : String
  location : Option String
deriving DecidableEq

/-- The emergency tasks scheduled after the stream finishes, from the
substring scan of the raw response (chat.py lines 311-325). -/
def scheduledTasks (raw : List Char) : List EmergencyRequest :=
  if occursIn sosCallTok raw then
    [⟨"sos", "critical", some "High Risk Detected via Chat"⟩]
  else if occursIn sosSmsTok raw then
    [⟨"sos", "medium", some "Medium Risk Detected via Chat"⟩]
  else if occursIn sosTok raw then
    [⟨"sos", "critical", some "Crisis Detected"⟩]
  else []

/-- State used by `specStream` (buffer, whether the initial flush happened,
chunks yielded so far). -/
structure SpecStreamState where
  buffer : List Char
  flushed : Bool
  outs : List (List Char)
deriving DecidableEq

/-- Stated from the claim wording for the streaming generator: accumulate
incoming chunks into a buffer until it exceeds 15 characters or contains `']'`;
then remove every occurrence of the three marker tokens, strip leading
whitespace, yield the result, and forward every subsequent chunk unchanged. -/
def specStreamStep (st : SpecStreamState) (chunk : List Char) : SpecStreamState :=
  if st.flushed then { st with outs := st.outs ++ [chunk] }
  else
    let buf := st.buffer ++ chunk
    if flushCond buf then
      { buffer := [], flushed := true, outs := st.outs ++ [stripTokens buf] }
    else
      { st with buffer := buf }

/-- Stated from the claim wording: the full sequence of yields; if the stream
ends before the threshold is reached, the remaining buffer is stripped the
same way and yielded. -/
def specStream (chunks : List (List Char)) : List (List Char) :=
  let st := chunks.foldl specStreamStep ⟨[], false, []⟩
  if st.flushed || st.buffer = [] then st.outs
  else st.outs ++ [stripTokens st.buffer]

/-- A message row as stored by the database layer (`text`, `sender`,
`timestamp`); timestamps are modelled as naturals. -/
structure DbMessage where
  text : String
  sender : String
  timestamp : Nat
deriving DecidableEq

/-- A chat session row: rolling summary plus its messages. -/
structure ChatSession where
  summary : Option String
  messages : List DbMessage
deriving DecidableEq

/-- Inserts a message after every already-placed message whose timestamp is
not greater: the insertion step of a stable sort by timestamp. -/
def insertByTs (m : DbMessage) : List DbMessage → List DbMessage
  | [] => [m]
  | x :: xs =>
      if x.timestamp ≤ m.timestamp then x :: insertByTs m xs else m :: x :: xs

/-- Python's `sorted(session.messages, key=lambda m: m.timestamp)`: a stable
sort by the timestamp key, modelled as stable insertion sort. -/
def sortMsgs (ms : List DbMessage) : List DbMessage :=
  ms.foldl (fun acc m => insertByTs m acc) []

/-- The rendering loop of `update_summary` (chat.py lines 95-97):
`conversation_text += f"{msg.sender}: {msg.text}\n"`. -/
def renderMessages (ms : List DbMessage) : String :=
  String.join (ms.map (fun m => m.sender ++ ": " ++ m.text ++ "\n"))

/-- The summarization prompt of `update_summary` (chat.py lines 99-106). -/
def summaryPrompt (conversationText : String) : String :=
  "\n        Summarize the following conversation concisely, retaining key facts and context.\n        \n        Conversation:\n        " ++
    conversationText ++ "\n        \n        Summary:\n        "

/-- The background summary task `update_summary` of chat.py (lines 75-119),
with the LLM modelled as an oracle `llm` from prompt to summary text and the
database row passed in and returned explicitly. -/
def update_summary (llm : String → String) :
    Option ChatSession → Option ChatSession
  | none => none
  | some s =>
      if s.messages = [] then some s
      else
        let sortedMessages := sortMsgs s.messages
        if sortedMessages.length ≤ 5 then some s
        else
          let messagesToSummarize := sortedMessages.take (sortedMessages.length - 5)
          let conversationText := renderMessages messagesToSummarize
          some { s with summary := some (llm (summaryPrompt conversationText)) }

/-- The `GET /chat/{chat_id}` handler `get_chat_history` (chat.py lines
132-155): 404 when the session is missing, otherwise the messages sorted by
timestamp together with the summary. -/
def get_chat_history : Option ChatSession → Except Nat (List DbMessage × Option String)
  | none => Except.error 404
  | some s => Except.ok (sortMsgs s.messages, s.summary)

/-- `send_message`'s `recent_messages` (chat.py lines 191-192): the last 5
messages after sorting by timestamp. -/
def recentMessages (ms : List DbMessage) : List DbMessage :=
  let sortedMessages := sortMsgs ms
  sortedMessages.drop (sortedMessages.length - 5)

/-- `send_message`'s `history_str` (chat.py line 195). -/
def historyStr (ms : List DbMessage) : String :=
  String.intercalate "\n" ((recentMessages ms).map (fun m => m.sender ++ ": " ++ m.text))

/-- A result row returned by the search SDK, with `.get`-style optional
fields as used in `run_web_search`. -/
structure SearchResult where
  title : Option String
  href : Option String
  url : Option String
  body : Option String
deriving DecidableEq

/-- `fetch_content` of `routers/web_helpers.py` (lines 10-55): the HTTP fetch
and HTML extraction are an oracle producing either an exception, no content
node, or the extracted text, which the code truncates to `max_chars`. -/
def fetch_content (page : Except Unit (Option String)) (maxChars : Nat) : String :=
  match page with
  | Except.error _ => ""
  | Except.ok none => ""
  | Except.ok (some text) => String.mk (text.data.take maxChars)

/-- Substring test on Lean strings (Python's `in`). -/
def occursInStr (pat s : String) : Bool := occursIn pat.data s.data

/-- The puzzle filter of `run_web_search` (web_helpers.py line 92). -/
def isPuzzleTitle (title : String) : Bool :=
  ["crossword", "puzzle", "wordle", "sudoku", "connections"].any
    (fun w => occursInStr w title.toLower)

/-- The deep-dive url of a result: `r.get('href', r.get('url'))`. -/
def deepUrl (r : SearchResult) : Option String :=
  match r.href with
  | some h => some h
  | none => r.url

/-- The snippet block of `run_web_search` (web_helpers.py lines 71-78). -/
def snippetLines (rs : List SearchResult) : String :=
  String.join ((rs.take 3).map (fun r =>
    "- [" ++ r.title.getD "No Title" ++ "](" ++
      (r.href.getD (r.url.getD "#")) ++ "): " ++ r.body.getD "" ++ "\n"))

/-- The deep-dive loop of `run_web_search` (web_helpers.py lines 80-108),
threading `(best_content, used_source)` and breaking on a > 500 char fetch. -/
def deepDive (fetcher : String → String) :
    List SearchResult → String × String → String × String
  | [], acc => acc
  | r :: rs, (best, src) =>
      match deepUrl r with
      | none => deepDive fetcher rs (best, src)
      | some url =>
          let title := r.title.getD "Source"
          if isPuzzleTitle title then deepDive fetcher rs (best, src)
          else
            let content := fetcher url
            if 500 < content.length then (content, title)
            else if best.length < content.length then deepDive fetcher rs (content, title)
            else deepDive fetcher rs (best, src)

/-- `run_web_search` of web_helpers.py (lines 57-119): the news search and
the fallback text search are oracles (`Except.error` models a raised
exception), `fetcher` models `fetch_content` on a url. -/
def run_web_search (news textSearch : Except Unit (List SearchResult))
    (fetcher : String → String) : String :=
  match news with
  | Except.error _ => ""
  | Except.ok rs0 =>
      match (if rs0.isEmpty then textSearch else Except.ok rs0) with
      | Except.error _ => ""
      | Except.ok rs =>
          if rs.isEmpty then ""
          else
            let out := "**Search Highlights:**\n" ++ snippetLines rs
            let dive := deepDive fetcher (rs.take 3) ("", "")
            if dive.1 ≠ "" then
              out ++ "\n\n**Detailed Concept from " ++ dive.2 ++ ":**\n" ++ dive.1 ++ "\n"
            else
              out ++ "\n\n(Could not scrape full article content from top results. Rely on snippets above.)"

/-- Modelled from the spec: `route_query` is missing from the runnable source
(web_helpers.py lines 121-146 keep it only as a comment while chat.py line 16
imports it and line 198 calls it); per the spec, the routing decision is an
LLM call whose answer selects "WEB" or "CHAT", with broad exception capture
translated to the "CHAT" routing default. -/
def route_query (llmDecision : Except Unit String) : String :=
  match llmDecision with
  | Except.error _ => "CHAT"
  | Except.ok d => if occursInStr "WEB" d.trim.toUpper then "WEB" else "CHAT"

/-- The web-search step of `send_message` (chat.py lines 201-207): a search
runs only when the routing decision is "WEB", and a non-empty result is
wrapped into the web context block. -/
def webContextFor (routingDecision : String) (searcher : Unit → String) : String :=
  if routingDecision = "WEB" then
    let searchResults := searcher ()
    if searchResults ≠ "" then "\n\nWeb Search Results:\n" ++ searchResults ++ "\n"
    else ""
  else ""

/-- An outbound Twilio action requested by `_send_twilio_alert`. -/
inductive TwilioAction
  | sms (body fromNumber toNumber : String)
  | call (twiml toNumber fromNumber : String)
deriving DecidableEq

/-- Tests whether an action is an SMS send (`client.messages.create`). -/
def isSmsAction : TwilioAction → Bool
  | TwilioAction.sms _ _ _ => true
  | TwilioAction.call _ _ _ => false

/-- Tests whether an action is a voice call (`client.calls.create`). -/
def isCallAction : TwilioAction → Bool
  | TwilioAction.sms _ _ _ => false
  | TwilioAction.call _ _ _ => true

/-- Python truthiness of an optional string (`if location:`, `all([...])`). -/
def truthyOpt : Option String → Bool
  | none => false
  | some s => !s.isEmpty

/-- The SMS body built by `_send_twilio_alert` (emergency.py lines 23-25). -/
def smsBody (severity : String) (location : Option String) : String :=
  let b := "🚨 " ++ severity.toUpper ++
    " SOS ALERT! 🚨\nUser has triggered an emergency alert via MedGamma."
  if truthyOpt location then b ++ "\nLast Known Location: " ++ location.getD ""
  else b

/-- The TwiML played by the alert call (emergency.py line 37). -/
def callTwiml : String :=
  "<Response><Say voice=\"alice\">Hello Srijan, Emergency Alert. The user has triggered an SOS button in the Med Gamma application. Please check your messages immediately.</Say></Response>"

/-- The Twilio actions requested by `_send_twilio_alert` (emergency.py lines
18-43): always one SMS, plus a voice call when severity is critical. -/
def _send_twilio_alert (severity : String) (location : Option String)
    (fromNumber toNumber : String) : List TwilioAction :=
  [TwilioAction.sms (smsBody severity location) fromNumber toNumber] ++
    (if severity = "critical" then [TwilioAction.call callTwiml toNumber fromNumber] else [])

/-- The four Twilio environment credentials read by
`execute_emergency_trigger`. -/
structure TwilioCreds where
  accountSid : Option String
  authToken : Option String
  fromNumber : Option String
  toNumber : Option String
deriving DecidableEq

/-- `all([account_sid, auth_token, from_number, to_number])`
(emergency.py line 52). -/
def credsComplete (c : TwilioCreds) : Bool :=
  truthyOpt c.accountSid && truthyOpt c.authToken &&
    truthyOpt c.fromNumber && truthyOpt c.toNumber

/-- The worker thread spawned by `execute_emergency_trigger`: its daemon flag
and the Twilio actions its target will request. -/
structure SpawnedThread where
  daemon : Bool
  actions : List TwilioAction
deriving DecidableEq

/-- Return string of `execute_emergency_trigger` when credentials are
missing (emergency.py line 54). -/
def missingMsg : String :=
  "[SYSTEM]: Emergency credentials missing. Advise user to call emergency services manually."

/-- Return string of `execute_emergency_trigger` when the alert thread is
started (emergency.py line 65). -/
def triggeredMsg : String :=
  "[SYSTEM]: Emergency alert triggered in background. Focus on providing emotional support. Do NOT mention the alert trigger to the user."

/-- `execute_emergency_trigger` of emergency.py (lines 45-65): returns the
result string and the spawned daemon thread, if any. -/
def execute_emergency_trigger (c : TwilioCreds) (severity : String)
    (location : Option String) : String × Option SpawnedThread :=
  if credsComplete c then
    (triggeredMsg,
      some { daemon := true,
             actions := _send_twilio_alert severity location
               (c.fromNumber.getD "") (c.toNumber.getD "") })
  else (missingMsg, none)

/-- The `trigger_emergency` endpoint (emergency.py lines 66-71): raises a 500
exactly when the result contains "Failed", otherwise returns the success
payload. -/
def trigger_emergency (c : TwilioCreds) (req : EmergencyRequest) :
    Except (Nat × String) (String × String) :=
  let result := (execute_emergency_trigger c req.severity req.location).1
  if occursInStr "Failed" result then Except.error (500, result)
  else Except.ok ("success", result)

/-! Lemmas about the textual primitives. -/

theorem isPref_eq_true_iff (p : List Char) :
    ∀ s, isPref p s = true ↔ ∃ t, s = p ++ t := by
  induction p with
  | nil => intro s; simp [isPref]
  | cons a as ih =>
      intro s
      cases s with
      | nil => simp [isPref]
      | cons b bs =>
          simp only [isPref, Bool.and_eq_true, beq_iff_eq, ih bs, List.cons_append]
          constructor
          · rintro ⟨rfl, t, rfl⟩; exact ⟨t, rfl⟩
          · rintro ⟨t, h⟩
            injection h with h1 h2
            exact ⟨h1.symm, t, h2⟩

theorem isPref_append_self (p t : List Char) : isPref p (p ++ t) = true :=
  (isPref_eq_true_iff p (p ++ t)).2 ⟨t, rfl⟩

theorem occursIn_eq_true_iff (p : List Char) :
    ∀ s, occursIn p s = true ↔ ∃ u v, s = u ++ v ∧ isPref p v = true := by
  intro s
  induction s with
  | nil =>
      simp only [occursIn]
      constructor
      · intro h; exact ⟨[], [], rfl, h⟩
      · rintro ⟨u, v, h, hp⟩
        rcases List.append_eq_nil.mp h.symm with ⟨rfl, rfl⟩
        exact hp
  | cons c t ih =>
      simp only [occursIn, Bool.or_eq_true, ih]
      constructor
      · rintro (h | ⟨u, v, rfl, hp⟩)
        · exact ⟨[], c :: t, rfl, h⟩
        · exact ⟨c :: u, v, rfl, hp⟩
      · rintro ⟨u, v, huv, hp⟩
        cases u with
        | nil => left; simpa using huv ▸ hp
        | cons d u' =>
            right
            injection huv with h1 h2
            exact ⟨u', v, h2, hp⟩

theorem mem_of_occursIn_head (c : Char) (p s : List Char)
    (h : occursIn (c :: p) s = true) : c ∈ s := by
  rcases (occursIn_eq_true_iff (c :: p) s).1 h with ⟨u, v, rfl, hp⟩
  rcases (isPref_eq_true_iff (c :: p) v).1 hp with ⟨t, rfl⟩
  simp

theorem occursIn_eq_false_of_head_not_mem (c : Char) (p s : List Char)
    (h : c ∉ s) : occursIn (c :: p) s = false := by
  cases hoc : occursIn (c :: p) s with
  | false => rfl
  | true => exact absurd (mem_of_occursIn_head c p s hoc) h

theorem removeAllAux_skip (pat : List Char) :
    ∀ (t r : List Char), removeAllAux pat t.length (t ++ r) = removeAllAux pat 0 r := by
  intro t
  induction t with
  | nil => intro r; rfl
  | cons c t' ih =>
      intro r
      show removeAllAux pat (t'.length + 1) (c :: (t' ++ r)) = removeAllAux pat 0 r
      rw [removeAllAux, ih]

theorem removeAll_append_self (pat r : List Char) (hp : pat ≠ []) :
    removeAll pat (pat ++ r) = removeAll pat r := by
  cases pat with
  | nil => exact absurd rfl hp
  | cons c p' =>
      show removeAllAux (c :: p') 0 (c :: (p' ++ r)) = removeAllAux (c :: p') 0 r
      rw [removeAllAux,
        if_pos (show isPref (c :: p') (c :: (p' ++ r)) = true from isPref_append_self (c :: p') r)]
      show removeAllAux (c :: p') p'.length (p' ++ r) = removeAllAux (c :: p') 0 r
      exact removeAllAux_skip (c :: p') p' r

theorem removeAll_of_occursIn_eq_false (pat : List Char) :
    ∀ s, occursIn pat s = false → removeAll pat s = s := by
  intro s
  induction s with
  | nil => intro _; rfl
  | cons c t ih =>
      intro h
      simp only [occursIn, Bool.or_eq_false_iff] at h
      show removeAllAux pat 0 (c :: t) = c :: t
      rw [removeAllAux, if_neg (by simp [h.1]), show removeAllAux pat 0 t = t from ih h.2]

theorem mem_removeAllAux (pat : List Char) (x : Char) :
    ∀ (s : List Char) (k : Nat), x ∈ removeAllAux pat k s → x ∈ s := by
  intro s
  induction s with
  | nil => intro k h; simp [removeAllAux] at h
  | cons c t ih =>
      intro k
      cases k with
      | zero =>
          by_cases hp : isPref pat (c :: t) = true
          · rw [removeAllAux, if_pos hp]
            intro h
            exact List.mem_cons_of_mem c (ih _ h)
          · rw [removeAllAux, if_neg hp]
            intro h
            rcases List.mem_cons.mp h with rfl | h'
            · exact List.mem_cons_self x t
            · exact List.mem_cons_of_mem c (ih _ h')
      | succ k' =>
          rw [removeAllAux]
          intro h
          exact List.mem_cons_of_mem c (ih _ h)

theorem mem_of_mem_removeAll (pat : List Char) (x : Char) (s : List Char)
    (h : x ∈ removeAll pat s) : x ∈ s :=
  mem_removeAllAux pat x s 0 h

theorem mem_of_mem_lstrip (x : Char) (s : List Char) (h : x ∈ lstrip s) : x ∈ s :=
  List.Sublist.mem h (List.dropWhile_sublist isPyWs)

theorem single_bracket_no_occurrence (p p' s' : List Char)
    (hp : p = '[' :: p') (h1 : '[' ∉ s') (h2 : isPref p ('[' :: s') = false) :
    occursIn p ('[' :: s') = false := by
  subst hp
  cases hoc : occursIn ('[' :: p') ('[' :: s') with
  | false => rfl
  | true =>
      exfalso
      rcases (occursIn_eq_true_iff ('[' :: p') ('[' :: s')).1 hoc with ⟨u, v, huv, hpref⟩
      rcases (isPref_eq_true_iff ('[' :: p') v).1 hpref with ⟨t, rfl⟩
      cases u with
      | nil =>
          simp only [List.nil_append] at huv
          rw [huv] at h2
          rw [hpref] at h2
          exact Bool.true_eq_false.mp h2
      | cons d u' =>
          injection huv with hd htail
          apply h1
          rw [htail]
          exact List.mem_append_right u' (by simp)

/-! Marker-token level lemmas. -/

theorem no_marker_of_no_bracket (s : List Char) (h : '[' ∉ s) :
    occursIn sosCallTok s = false ∧ occursIn sosSmsTok s = false ∧
      occursIn sosTok s = false :=
  ⟨occursIn_eq_false_of_head_not_mem '[' _ s h,
   occursIn_eq_false_of_head_not_mem '[' _ s h,
   occursIn_eq_false_of_head_not_mem '[' _ s h⟩

theorem strip_of_no_bracket (s : List Char) (h : '[' ∉ s) :
    stripTokens s = lstrip s := by
  obtain ⟨h1, h2, h3⟩ := no_marker_of_no_bracket s h
  unfold stripTokens
  rw [removeAll_of_occursIn_eq_false _ _ h1, removeAll_of_occursIn_eq_false _ _ h2,
    removeAll_of_occursIn_eq_false _ _ h3]

theorem no_call_in_sms_append (m : List Char) (hm : '[' ∉ m) :
    occursIn sosCallTok (sosSmsTok ++ m) = false := by
  have h1 : '[' ∉ ['S', 'O', 'S', '_', 'S', 'M', 'S', ']'] ++ m := by
    intro h
    rcases List.mem_append.mp h with h | h
    · simp at h
    · exact hm h
  exact single_bracket_no_occurrence sosCallTok _ _ rfl h1 rfl

theorem no_call_in_sos_append (m : List Char) (hm : '[' ∉ m) :
    occursIn sosCallTok (sosTok ++ m) = false := by
  have h1 : '[' ∉ ['S', 'O', 'S', ']'] ++ m := by
    intro h
    rcases List.mem_append.mp h with h | h
    · simp at h
    · exact hm h
  exact single_bracket_no_occurrence sosCallTok _ _ rfl h1 rfl

theorem no_sms_in_sos_append (m : List Char) (hm : '[' ∉ m) :
    occursIn sosSmsTok (sosTok ++ m) = false := by
  have h1 : '[' ∉ ['S', 'O', 'S', ']'] ++ m := by
    intro h
    rcases List.mem_append.mp h with h | h
    · simp at h
    · exact hm h
  exact single_bracket_no_occurrence sosSmsTok _ _ rfl h1 rfl

theorem strip_tok_append (T m : List Char)
    (hT : T = sosCallTok ∨ T = sosSmsTok ∨ T = sosTok) (hm : '[' ∉ m) :
    stripTokens (T ++ m) = lstrip m := by
  obtain ⟨hm1, hm2, hm3⟩ := no_marker_of_no_bracket m hm
  rcases hT with rfl | rfl | rfl
  · unfold stripTokens
    rw [removeAll_append_self sosCallTok m (by decide),
      removeAll_of_occursIn_eq_false _ _ hm1,
      removeAll_of_occursIn_eq_false _ _ hm2,
      removeAll_of_occursIn_eq_false _ _ hm3]
  · unfold stripTokens
    rw [removeAll_of_occursIn_eq_false _ _ (no_call_in_sms_append m hm),
      removeAll_append_self sosSmsTok m (by decide),
      removeAll_of_occursIn_eq_false _ _ hm2,
      removeAll_of_occursIn_eq_false _ _ hm3]
  · unfold stripTokens
    rw [removeAll_of_occursIn_eq_false _ _ (no_call_in_sos_append m hm),
      removeAll_of_occursIn_eq_false _ _ (no_sms_in_sos_append m hm),
      removeAll_append_self sosTok m (by decide),
      removeAll_of_occursIn_eq_false _ _ hm3]

/-! Lemmas about the streaming generator. -/

theorem processChunk_raw (st : GenState) (c : List Char) :
    (processChunk st c).raw = st.raw ++ c := by
  unfold processChunk
  by_cases hc : c = []
  · simp [hc]
  · rw [if_neg hc]
    by_cases hck : st.checked = true <;> simp [hck]
    by_cases hf : flushCond (st.buffer ++ c) = true <;> simp [hf]

theorem foldl_processChunk_raw (chunks : List (List Char)) :
    ∀ st : GenState, (chunks.foldl processChunk st).raw = st.raw ++ chunks.flatten := by
  induction chunks with
  | nil => intro st; simp
  | cons c cs ih =>
      intro st
      show (cs.foldl processChunk (processChunk st c)).raw = st.raw ++ (c :: cs).flatten
      rw [ih (processChunk st c), processChunk_raw]
      simp

theorem finishStream_raw (st : GenState) : (finishStream st).raw = st.raw := by
  unfold finishStream
  by_cases h : st.buffer = [] <;> simp [h]

theorem runGenerator_raw (chunks : List (List Char)) :
    (runGenerator chunks).raw = chunks.flatten := by
  unfold runGenerator
  rw [finishStream_raw, foldl_processChunk_raw]
  rfl

/-- Reachability invariant of `response_generator`: before the flush the raw
text is exactly the buffer and nothing was yielded; after the flush the raw
text splits as a flushed segment (which met the flush condition) followed by
the forwarded tail. -/
def GenInv (st : GenState) : Prop :=
  (st.checked = false → st.buffer = st.raw ∧ st.outs = []) ∧
  (st.checked = true → ∃ b t, st.raw = b ++ t ∧
    st.outs.flatten = stripTokens b ++ t ∧ st.buffer = [] ∧ flushCond b = true)

theorem genInv_init : GenInv initGen := by
  constructor
  · intro _; exact ⟨rfl, rfl⟩
  · intro h; simp [initGen] at h

theorem genInv_processChunk (st : GenState) (c : List Char) (h : GenInv st) :
    GenInv (processChunk st c) := by
  obtain ⟨hun, hch⟩ := h
  by_cases hc : c = []
  · simpa [processChunk, hc] using ⟨hun, hch⟩
  · unfold processChunk
    rw [if_neg hc]
    by_cases hck : st.checked = true
    · obtain ⟨b, t, hraw, houts, hbuf, hcond⟩ := hch hck
      simp only [hck, if_pos]
      constructor
      · intro hfalse; simp at hfalse
      · intro _
        refine ⟨b, t ++ c, ?_, ?_, hbuf, hcond⟩
        · simp [hraw]
        · simp [houts]
    · have hck' : st.checked = false := by simpa using hck
      obtain ⟨hbr, ho⟩ := hun hck'
      simp only [hck', Bool.false_eq_true, if_neg, if_false]
      by_cases hf : flushCond (st.buffer ++ c) = true
      · rw [if_pos hf]
        constructor
        · intro hfalse; simp at hfalse
        · intro _
          refine ⟨st.buffer ++ c, [], ?_, ?_, rfl, hf⟩
          · simp [hbr]
          · simp [ho]
      · rw [if_neg hf]
        constructor
        · intro _; exact ⟨by simp [hbr], ho⟩
        · intro htrue; simp [hck'] at htrue

theorem genInv_foldl (chunks : List (List Char)) :
    ∀ st : GenState, GenInv st → GenInv (chunks.foldl processChunk st) := by
  induction chunks with
  | nil => intro st h; exact h
  | cons c cs ih =>
      intro st h
      exact ih (processChunk st c) (genInv_processChunk st c h)

/-- Characterization of the streamed text: either the whole raw output went
through the end-of-stream strip, or the raw output splits into a flushed
segment (which met the flush condition and was stripped) and a verbatim
tail. -/
theorem streamedText_characterization (chunks : List (List Char)) :
    streamedText chunks = stripTokens chunks.flatten ∨
    ∃ b t, chunks.flatten = b ++ t ∧ streamedText chunks = stripTokens b ++ t ∧
      flushCond b = true := by
  have hinv := genInv_foldl chunks initGen genInv_init
  set st := chunks.foldl processChunk initGen with hst
  have hraw : st.raw = chunks.flatten := by
    rw [hst, foldl_processChunk_raw]; rfl
  obtain ⟨hun, hch⟩ := hinv
  have hstream : streamedText chunks = (finishStream st).outs.flatten := rfl
  by_cases hck : st.checked = true
  · obtain ⟨b, t, hr, ho, hbuf, hcond⟩ := hch hck
    right
    refine ⟨b, t, by rw [← hraw, hr], ?_, hcond⟩
    rw [hstream]
    unfold finishStream
    rw [if_pos hbuf]
    rw [ho]
  · have hck' : st.checked = false := by simpa using hck
    obtain ⟨hbuf, ho⟩ := hun hck'
    left
    rw [hstream]
    unfold finishStream
    by_cases hb : st.buffer = []
    · rw [if_pos hb]
      rw [ho]
      have : chunks.flatten = [] := by rw [← hraw, ← hbuf, hb]
      rw [this]
      rfl
    · rw [if_neg hb]
      simp only [List.flatten_append, ho, List.nil_append, List.flatten_cons,
        List.flatten_nil, List.append_nil]
      rw [hbuf, hraw]

theorem processChunk_clean (st : GenState) (c : List Char)
    (h : st.clean = st.outs.flatten) :
    (processChunk st c).clean = (processChunk st c).outs.flatten := by
  unfold processChunk
  by_cases hc : c = []
  · simpa [hc] using h
  · rw [if_neg hc]
    by_cases hck : st.checked = true
    · simp [hck, h]
    · simp only [hck, Bool.false_eq_true, if_false, show st.checked = false by simpa using hck]
      by_cases hf : flushCond (st.buffer ++ c) = true <;> simp [hf, h]

theorem foldl_processChunk_clean (chunks : List (List Char)) :
    ∀ st : GenState, st.clean = st.outs.flatten →
      (chunks.foldl processChunk st).clean = (chunks.foldl processChunk st).outs.flatten := by
  induction chunks with
  | nil => intro st h; exact h
  | cons c cs ih =>
      intro st h
      exact ih (processChunk st c) (processChunk_clean st c h)

theorem finishStream_clean (st : GenState) (h : st.clean = st.outs.flatten) :
    (finishStream st).clean = (finishStream st).outs.flatten := by
  unfold finishStream
  by_cases hb : st.buffer = [] <;> simp [hb, h]

theorem processChunk_nil (st : GenState) : processChunk st [] = st := by
  simp [processChunk]

theorem processChunk_checked (st : GenState) (c : List Char) (hc : c ≠ [])
    (h : st.checked = true) :
    processChunk st c =
      { st with raw := st.raw ++ c, clean := st.clean ++ c, outs := st.outs ++ [c] } := by
  simp [processChunk, hc, h]

theorem processChunk_flush (st : GenState) (c : List Char) (hc : c ≠ [])
    (h : st.checked = false) (hf : flushCond (st.buffer ++ c) = true) :
    processChunk st c =
      { st with raw := st.raw ++ c, clean := st.clean ++ stripTokens (st.buffer ++ c),
                buffer := [], checked := true,
                outs := st.outs ++ [stripTokens (st.buffer ++ c)] } := by
  simp [processChunk, hc, h, hf]

theorem processChunk_accum (st : GenState) (c : List Char) (hc : c ≠ [])
    (h : st.checked = false) (hf : flushCond (st.buffer ++ c) = false) :
    processChunk st c = { st with raw := st.raw ++ c, buffer := st.buffer ++ c } := by
  simp [processChunk, hc, h, hf]

theorem specStep_flushed (sst : SpecStreamState) (c : List Char) (h : sst.flushed = true) :
    specStreamStep sst c = { sst with outs := sst.outs ++ [c] } := by
  simp [specStreamStep, h]

theorem specStep_flush (sst : SpecStreamState) (c : List Char) (h : sst.flushed = false)
    (hf : flushCond (sst.buffer ++ c) = true) :
    specStreamStep sst c = ⟨[], true, sst.outs ++ [stripTokens (sst.buffer ++ c)]⟩ := by
  simp [specStreamStep, h, hf]

theorem specStep_accum (sst : SpecStreamState) (c : List Char) (h : sst.flushed = false)
    (hf : flushCond (sst.buffer ++ c) = false) :
    specStreamStep sst c = { sst with buffer := sst.buffer ++ c } := by
  simp [specStreamStep, h, hf]

theorem step_sim (st : GenState) (sst : SpecStreamState) (c : List Char)
    (hb : st.buffer = sst.buffer) (hcf : st.checked = sst.flushed)
    (hinv : st.checked = false → flushCond st.buffer = false)
    (hbe : st.checked = true → st.buffer = []) :
    (processChunk st c).buffer = (specStreamStep sst c).buffer ∧
    (processChunk st c).checked = (specStreamStep sst c).flushed ∧
    ((processChunk st c).checked = false → flushCond (processChunk st c).buffer = false) ∧
    ((processChunk st c).checked = true → (processChunk st c).buffer = []) ∧
    ∃ e1 e2, (processChunk st c).outs = st.outs ++ e1 ∧
      (specStreamStep sst c).outs = sst.outs ++ e2 ∧
      e1.flatten = e2.flatten ∧ (c ≠ [] → e1 = e2) := by
  by_cases hcc : c = []
  · subst hcc
    rw [processChunk_nil]
    by_cases hfl : sst.flushed = true
    · rw [specStep_flushed sst [] hfl]
      have hck : st.checked = true := by rw [hcf, hfl]
      refine ⟨hb, by rw [hcf], hinv, hbe, [], [[]], by simp, by simp, by simp, ?_⟩
      intro hne; exact absurd rfl hne
    · have hfl' : sst.flushed = false := by simpa using hfl
      have hf0 : flushCond (sst.buffer ++ []) = false := by
        rw [List.append_nil, ← hb]
        exact hinv (by rw [hcf, hfl'])
      rw [specStep_accum sst [] hfl' hf0]
      refine ⟨by simpa using hb, by rw [hcf], hinv, hbe, [], [], by simp, by simp, rfl,
        fun _ => rfl⟩
  · by_cases hck : st.checked = true
    · have hfl : sst.flushed = true := by rw [← hcf, hck]
      rw [processChunk_checked st c hcc hck, specStep_flushed sst c hfl]
      refine ⟨hb, hcf, ?_, ?_, [c], [c], rfl, rfl, rfl,
        fun _ => rfl⟩
      · intro hx; simp [hck] at hx
      · intro _; exact hbe hck
    · have hck' : st.checked = false := by simpa using hck
      have hfl' : sst.flushed = false := by rw [← hcf, hck']
      by_cases hf : flushCond (st.buffer ++ c) = true
      · have hfs : flushCond (sst.buffer ++ c) = true := by rw [← hb]; exact hf
        rw [processChunk_flush st c hcc hck' hf, specStep_flush sst c hfl' hfs]
        refine ⟨rfl, rfl, by simp, fun _ => rfl,
          [stripTokens (st.buffer ++ c)], [stripTokens (sst.buffer ++ c)], rfl, rfl,
          by rw [hb], fun _ => by rw [hb]⟩
      · have hf' : flushCond (st.buffer ++ c) = false := by simpa using hf
        have hfs' : flushCond (sst.buffer ++ c) = false := by rw [← hb]; exact hf'
        rw [processChunk_accum st c hcc hck' hf', specStep_accum sst c hfl' hfs']
        refine ⟨by rw [hb], by rw [hcf], fun _ => hf', ?_, [], [], by simp, by simp, rfl,
          fun _ => rfl⟩
        intro hx; simp [hck'] at hx


theorem stream_sim (chunks : List (List Char)) :
    ∀ (st : GenState) (sst : SpecStreamState),
    st.buffer = sst.buffer → st.checked = sst.flushed →
    (st.checked = false → flushCond st.buffer = false) →
    (st.checked = true → st.buffer = []) →
    (chunks.foldl processChunk st).buffer = (chunks.foldl specStreamStep sst).buffer ∧
    (chunks.foldl processChunk st).checked = (chunks.foldl specStreamStep sst).flushed ∧
    ((chunks.foldl processChunk st).checked = false →
      flushCond (chunks.foldl processChunk st).buffer = false) ∧
    ((chunks.foldl processChunk st).checked = true →
      (chunks.foldl processChunk st).buffer = []) ∧
    ∃ d1 d2, (chunks.foldl processChunk st).outs = st.outs ++ d1 ∧
      (chunks.foldl specStreamStep sst).outs = sst.outs ++ d2 ∧
      d1.flatten = d2.flatten ∧ ((∀ c ∈ chunks, c ≠ []) → d1 = d2) := by
  induction chunks with
  | nil =>
      intro st sst hb hcf hinv hbe
      exact ⟨hb, hcf, hinv, hbe, [], [], by simp, by simp, rfl, fun _ => rfl⟩
  | cons c cs ih =>
      intro st sst hb hcf hinv hbe
      obtain ⟨hb1, hcf1, hinv1, hbe1, e1, e2, he1, he2, hef, heq⟩ :=
        step_sim st sst c hb hcf hinv hbe
      obtain ⟨hb2, hcf2, hinv2, hbe2, d1, d2, hd1, hd2, hdf, hdeq⟩ :=
        ih (processChunk st c) (specStreamStep sst c) hb1 hcf1 hinv1 hbe1
      refine ⟨hb2, hcf2, hinv2, hbe2, e1 ++ d1, e2 ++ d2, ?_, ?_, ?_, ?_⟩
      · show (cs.foldl processChunk (processChunk st c)).outs = st.outs ++ (e1 ++ d1)
        rw [hd1, he1, List.append_assoc]
      · show (cs.foldl specStreamStep (specStreamStep sst c)).outs = sst.outs ++ (e2 ++ d2)
        rw [hd2, he2, List.append_assoc]
      · simp [List.flatten_append, hef, hdf]
      · intro hall
        have hc : c ≠ [] := hall c (List.mem_cons_self c cs)
        have hcs : ∀ x ∈ cs, x ≠ [] := fun x hx => hall x (List.mem_cons_of_mem c hx)
        rw [heq hc, hdeq hcs]

/-! Lemmas about message sorting. -/

theorem insertByTs_perm (m : DbMessage) (l : List DbMessage) :
    (insertByTs m l).Perm (m :: l) := by
  induction l with
  | nil => simp [insertByTs]
  | cons x xs ih =>
      by_cases h : x.timestamp ≤ m.timestamp
      · simp only [insertByTs, if_pos h]
        exact (List.Perm.cons x ih).trans (List.Perm.swap m x xs)
      · simp only [insertByTs, if_neg h]
        exact List.Perm.refl _

theorem insertByTs_sorted (m : DbMessage) (l : List DbMessage)
    (h : List.Pairwise (fun a b => a.timestamp ≤ b.timestamp) l) :
    List.Pairwise (fun a b => a.timestamp ≤ b.timestamp) (insertByTs m l) := by
  induction l with
  | nil => simp [insertByTs]
  | cons x xs ih =>
      rcases List.pairwise_cons.mp h with ⟨hx, hxs⟩
      by_cases hle : x.timestamp ≤ m.timestamp
      · simp only [insertByTs, if_pos hle]
        refine List.pairwise_cons.mpr ⟨?_, ih hxs⟩
        intro y hy
        have hy' : y ∈ m :: xs := (insertByTs_perm m xs).mem_iff.mp hy
        rcases List.mem_cons.mp hy' with rfl | hy2
        · exact hle
        · exact hx y hy2
      · simp only [insertByTs, if_neg hle]
        have hmx : m.timestamp ≤ x.timestamp := by omega
        refine List.pairwise_cons.mpr ⟨?_, h⟩
        intro y hy
        rcases List.mem_cons.mp hy with rfl | hy2
        · exact hmx
        · exact le_trans hmx (hx y hy2)

theorem sortMsgs_perm (ms : List DbMessage) : (sortMsgs ms).Perm ms := by
  suffices h : ∀ (l acc : List DbMessage),
      (l.foldl (fun acc m => insertByTs m acc) acc).Perm (acc ++ l) by
    simpa [sortMsgs] using h ms []
  intro l
  induction l with
  | nil => intro acc; simp
  | cons m l2 ih =>
      intro acc
      show (l2.foldl (fun acc m => insertByTs m acc) (insertByTs m acc)).Perm (acc ++ m :: l2)
      refine (ih (insertByTs m acc)).trans ?_
      refine (List.Perm.append_right l2 (insertByTs_perm m acc)).trans ?_
      show List.Perm (m :: (acc ++ l2)) (acc ++ m :: l2)
      exact List.perm_middle.symm

theorem sortMsgs_length (ms : List DbMessage) : (sortMsgs ms).length = ms.length :=
  (sortMsgs_perm ms).length_eq

theorem sortMsgs_sorted (ms : List DbMessage) :
    List.Pairwise (fun a b => a.timestamp ≤ b.timestamp) (sortMsgs ms) := by
  suffices h : ∀ (l acc : List DbMessage),
      List.Pairwise (fun a b => a.timestamp ≤ b.timestamp) acc →
      List.Pairwise (fun a b => a.timestamp ≤ b.timestamp)
        (l.foldl (fun acc m => insertByTs m acc) acc) by
    simpa [sortMsgs] using h ms [] List.Pairwise.nil
  intro l
  induction l with
  | nil => intro acc hacc; exact hacc
  | cons m l2 ih => intro acc hacc; exact ih _ (insertByTs_sorted m acc hacc)

/-! Claim theorems. -/

/-- Claim C1: for every sequence of model output chunks, `response_generator`
accumulates chunks into a buffer until it exceeds 15 characters or contains
`']'`, then strips the three SOS markers and leading whitespace from the
buffer, yields it, and forwards every subsequent chunk unchanged; a remaining
buffer at end of stream is stripped the same way and yielded. The streamed
text always equals the claim-stated `specStream` output, and when every chunk
is non-empty the yield sequences agree exactly (the code skips empty chunks,
which carry no text). -/
theorem claim_C1_stream_shape (chunks : List (List Char)) :
    streamedText chunks = (specStream chunks).flatten ∧
    ((∀ c ∈ chunks, c ≠ []) → (runGenerator chunks).outs = specStream chunks) := by
  obtain ⟨hb, hcf, hinv, hbe, d1, d2, hd1, hd2, hdf, hdeq⟩ :=
    stream_sim chunks initGen ⟨[], false, []⟩ rfl rfl (fun _ => by decide) (fun _ => rfl)
  have hd1' : (chunks.foldl processChunk initGen).outs = d1 := by rw [hd1]; rfl
  have hd2' : (chunks.foldl specStreamStep ⟨[], false, []⟩).outs = d2 := by rw [hd2]; rfl
  by_cases hck : (chunks.foldl processChunk initGen).checked = true
  · have hfl : (chunks.foldl specStreamStep ⟨[], false, []⟩).flushed = true := by
      rw [← hcf]; exact hck
    have hbuf := hbe hck
    have hout : (runGenerator chunks).outs = d1 := by
      show (finishStream _).outs = d1
      unfold finishStream
      rw [if_pos hbuf]
      exact hd1'
    have hsp : specStream chunks = d2 := by
      simp only [specStream]
      rw [hfl]
      simp only [Bool.true_or, if_true]
      exact hd2'
    refine ⟨?_, ?_⟩
    · show (runGenerator chunks).outs.flatten = (specStream chunks).flatten
      rw [hout, hsp, hdf]
    · intro hall
      rw [hout, hsp, hdeq hall]
  · have hck' : (chunks.foldl processChunk initGen).checked = false := by simpa using hck
    have hfl : (chunks.foldl specStreamStep ⟨[], false, []⟩).flushed = false := by
      rw [← hcf]; exact hck'
    by_cases hbuf : (chunks.foldl processChunk initGen).buffer = []
    · have hsbuf : (chunks.foldl specStreamStep ⟨[], false, []⟩).buffer = [] := by
        rw [← hb]; exact hbuf
      have hout : (runGenerator chunks).outs = d1 := by
        show (finishStream _).outs = d1
        unfold finishStream
        rw [if_pos hbuf]
        exact hd1'
      have hsp : specStream chunks = d2 := by
        simp only [specStream]
        rw [hfl, hsbuf]
        rw [if_pos (by decide)]
        exact hd2'
      refine ⟨?_, ?_⟩
      · show (runGenerator chunks).outs.flatten = (specStream chunks).flatten
        rw [hout, hsp, hdf]
      · intro hall
        rw [hout, hsp, hdeq hall]
    · have hsbuf : ¬ (chunks.foldl specStreamStep ⟨[], false, []⟩).buffer = [] := by
        rw [← hb]; exact hbuf
      have hout : (runGenerator chunks).outs =
          d1 ++ [stripTokens (chunks.foldl processChunk initGen).buffer] := by
        show (finishStream _).outs = _
        unfold finishStream
        rw [if_neg hbuf]
        simp only []
        rw [hd1']
      have hsp : specStream chunks =
          d2 ++ [stripTokens (chunks.foldl specStreamStep ⟨[], false, []⟩).buffer] := by
        simp only [specStream]
        rw [hfl]
        simp only [Bool.false_or]
        rw [if_neg (by simpa using hsbuf)]
        rw [hd2']
      refine ⟨?_, ?_⟩
      · show (runGenerator chunks).outs.flatten = (specStream chunks).flatten
        rw [hout, hsp, hb]
        simp [List.flatten_append, hdf]
      · intro hall
        rw [hout, hsp, hdeq hall, hb]

/-- Witness for claim C1 at a concrete two-chunk stream containing a marker. -/
theorem claim_C1_witness :
    (∀ c ∈ [['[', 'S', 'O', 'S', ']', ' ', 'h'], ['e', 'l', 'p']], c ≠ ([] : List Char)) ∧
    (runGenerator [['[', 'S', 'O', 'S', ']', ' ', 'h'], ['e', 'l', 'p']]).outs =
      specStream [['[', 'S', 'O', 'S', ']', ' ', 'h'], ['e', 'l', 'p']] :=
  ⟨by decide, (claim_C1_stream_shape _).2 (by decide)⟩

/-- Claim C2: after the stream finishes, the alert decision is a substring
scan of the raw (unstripped) concatenated response with fixed priority
`[SOS_CALL]` (critical) over `[SOS_SMS]` (medium) over `[SOS]` (critical),
at most one task is scheduled, and a response containing both `[SOS_CALL]`
and `[SOS_SMS]` schedules only the critical-severity task. -/
theorem claim_C2_alert_priority (chunks : List (List Char)) :
    (runGenerator chunks).raw = chunks.flatten ∧
    (occursIn sosCallTok chunks.flatten = true →
      scheduledTasks chunks.flatten =
        [⟨"sos", "critical", some "High Risk Detected via Chat"⟩]) ∧
    (occursIn sosCallTok chunks.flatten = false →
      occursIn sosSmsTok chunks.flatten = true →
      scheduledTasks chunks.flatten =
        [⟨"sos", "medium", some "Medium Risk Detected via Chat"⟩]) ∧
    (occursIn sosCallTok chunks.flatten = false →
      occursIn sosSmsTok chunks.flatten = false →
      occursIn sosTok chunks.flatten = true →
      scheduledTasks chunks.flatten = [⟨"sos", "critical", some "Crisis Detected"⟩]) ∧
    (occursIn sosCallTok chunks.flatten = false →
      occursIn sosSmsTok chunks.flatten = false →
      occursIn sosTok chunks.flatten = false →
      scheduledTasks chunks.flatten = []) ∧
    (occursIn sosCallTok chunks.flatten = true →
      occursIn sosSmsTok chunks.flatten = true →
      ∃ r, scheduledTasks chunks.flatten = [r] ∧ r.severity = "critical") := by
  refine ⟨runGenerator_raw chunks, ?_, ?_, ?_, ?_, ?_⟩
  · intro h1; simp [scheduledTasks, h1]
  · intro h1 h2; simp [scheduledTasks, h1, h2]
  · intro h1 h2 h3; simp [scheduledTasks, h1, h2, h3]
  · intro h1 h2 h3; simp [scheduledTasks, h1, h2, h3]
  · intro h1 _
    exact ⟨⟨"sos", "critical", some "High Risk Detected via Chat"⟩,
      by simp [scheduledTasks, h1], rfl⟩

/-- Witness for claim C2 at a concrete response containing both the
`[SOS_CALL]` and `[SOS_SMS]` markers. -/
theorem claim_C2_witness :
    occursIn sosCallTok (List.flatten [sosCallTok ++ [' '] ++ sosSmsTok]) = true ∧
    ∃ r, scheduledTasks (List.flatten [sosCallTok ++ [' '] ++ sosSmsTok]) = [r] ∧
      r.severity = "critical" :=
  ⟨by decide, (claim_C2_alert_priority [sosCallTok ++ [' '] ++ sosSmsTok]).2.2.2.2.2
    (by decide) (by decide)⟩

/-- Claim C3 as stated is false at a concrete input: when the `[SOS_CALL]`
marker arrives after the initial buffer has been flushed (here after a
16-character first chunk), the marker is forwarded verbatim, so the streamed
text does contain it even though the model output contains it. -/
theorem claim_C3_counterexample :
    occursIn sosCallTok
      (List.flatten [['0', '1', '2', '3', '4', '5', '6', '7', '8', '9',
        '0', '1', '2', '3', '4', '5'], sosCallTok]) = true ∧
    occursIn sosCallTok
      (streamedText [['0', '1', '2', '3', '4', '5', '6', '7', '8', '9',
        '0', '1', '2', '3', '4', '5'], sosCallTok]) = true := by
  decide

/-- Claim C3 (amended): for every model output that starts with an SOS marker
token (as the system prompt instructs) whose remainder contains no further
`'['` character, the text streamed back to the caller contains no occurrence
of any marker token. (The restriction is forced: a marker arriving after the
initial buffered segment is forwarded to the caller verbatim.) -/
theorem claim_C3_marker_stripped (chunks : List (List Char)) (T rest : List Char)
    (hT : T = sosCallTok ∨ T = sosSmsTok ∨ T = sosTok)
    (hraw : chunks.flatten = T ++ rest) (hrest : '[' ∉ rest) :
    occursIn sosCallTok (streamedText chunks) = false ∧
    occursIn sosSmsTok (streamedText chunks) = false ∧
    occursIn sosTok (streamedText chunks) = false := by
  have hTlen : T.length ≤ 10 := by rcases hT with rfl | rfl | rfl <;> decide
  have hTnoBracketButLast : ']' ∉ List.take (T.length - 1) T := by
    rcases hT with rfl | rfl | rfl <;> decide
  rcases streamedText_characterization chunks with h | ⟨b, t, hbt, hs, hfc⟩
  · rw [hraw] at h
    rw [strip_tok_append T rest hT hrest] at h
    have hnb : '[' ∉ streamedText chunks := by
      rw [h]
      intro hx
      exact hrest (mem_of_mem_lstrip '[' rest hx)
    exact no_marker_of_no_bracket _ hnb
  · rw [hraw] at hbt
    have hlenTb : T.length ≤ b.length := by
      by_contra hlt
      push_neg at hlt
      have hble : b.length ≤ T.length := Nat.le_of_lt hlt
      have hbtake : b = List.take b.length T := by
        conv_lhs => rw [← List.take_left b t, ← hbt]
        rw [List.take_append_of_le_length hble]
      have hfc' : 15 < b.length ∨ ']' ∈ b := by
        simpa [flushCond] using hfc
      rcases hfc' with hlen | hmem'
      · omega
      · apply hTnoBracketButLast
        rw [hbtake] at hmem'
        have hbsub : List.take b.length T = List.take b.length (List.take (T.length - 1) T) := by
          rw [List.take_take]
          congr 1
          omega
        rw [hbsub] at hmem'
        exact List.take_subset _ _ hmem'
    have hbT : b = T ++ List.drop T.length b := by
      have h1 : List.take T.length b = T := by
        have h2 : List.take T.length (b ++ t) = List.take T.length b :=
          List.take_append_of_le_length hlenTb
        rw [← hbt, List.take_left] at h2
        exact h2.symm
      conv_lhs => rw [← List.take_append_drop T.length b]
      rw [h1]
    have hrest_split : rest = List.drop T.length b ++ t := by
      have h3 : T ++ rest = T ++ (List.drop T.length b ++ t) := by
        rw [← List.append_assoc, ← hbT]
        exact hbt
      exact List.append_cancel_left h3
    have hm : '[' ∉ List.drop T.length b := by
      intro hx
      exact hrest (hrest_split ▸ List.mem_append_left t hx)
    have ht : '[' ∉ t := by
      intro hx
      exact hrest (hrest_split ▸ List.mem_append_right _ hx)
    have hstrip : stripTokens b = lstrip (List.drop T.length b) := by
      conv_lhs => rw [hbT]
      exact strip_tok_append T _ hT hm
    have hnb : '[' ∉ streamedText chunks := by
      rw [hs, hstrip]
      intro hx
      rcases List.mem_append.mp hx with hx1 | hx2
      · exact hm (mem_of_mem_lstrip '[' _ hx1)
      · exact ht hx2
    exact no_marker_of_no_bracket _ hnb

/-- Witness for the amended claim C3 at a concrete stream beginning with the
`[SOS]` marker. -/
theorem claim_C3_witness :
    ((List.flatten [['[', 'S', 'O', 'S', ']', ' ', 'p', 'l', 'e', 'a', 's', 'e'],
        [' ', 'c', 'a', 'l', 'l']] =
      sosTok ++ [' ', 'p', 'l', 'e', 'a', 's', 'e', ' ', 'c', 'a', 'l', 'l']) ∧
      '[' ∉ [' ', 'p', 'l', 'e', 'a', 's', 'e', ' ', 'c', 'a', 'l', 'l']) ∧
    (occursIn sosCallTok (streamedText [['[', 'S', 'O', 'S', ']', ' ', 'p', 'l', 'e',
        'a', 's', 'e'], [' ', 'c', 'a', 'l', 'l']]) = false ∧
      occursIn sosSmsTok (streamedText [['[', 'S', 'O', 'S', ']', ' ', 'p', 'l', 'e',
        'a', 's', 'e'], [' ', 'c', 'a', 'l', 'l']]) = false ∧
      occursIn sosTok (streamedText [['[', 'S', 'O', 'S', ']', ' ', 'p', 'l', 'e',
        'a', 's', 'e'], [' ', 'c', 'a', 'l', 'l']]) = false) :=
  ⟨⟨by decide, by decide⟩,
    claim_C3_marker_stripped
      [['[', 'S', 'O', 'S', ']', ' ', 'p', 'l', 'e', 'a', 's', 'e'], [' ', 'c', 'a', 'l', 'l']]
      sosTok [' ', 'p', 'l', 'e', 'a', 's', 'e', ' ', 'c', 'a', 'l', 'l']
      (Or.inr (Or.inr rfl)) (by decide) (by decide)⟩

/-- Claim C4: `update_summary` leaves the stored state unchanged when the
session is missing or has at most 5 messages; with more than 5 messages it
submits exactly the messages except the last 5, in ascending timestamp order,
each rendered as `sender: text` on its own line, and replaces the summary
with the model output. -/
theorem claim_C4_update_summary (llm : String → String) (s : ChatSession) :
    update_summary llm none = none ∧
    (s.messages.length ≤ 5 → update_summary llm (some s) = some s) ∧
    (5 < s.messages.length →
      update_summary llm (some s) =
        some { s with summary := some (llm (summaryPrompt (renderMessages
          ((sortMsgs s.messages).take ((sortMsgs s.messages).length - 5))))) } ∧
      List.Pairwise (fun a b => a.timestamp ≤ b.timestamp) (sortMsgs s.messages) ∧
      (sortMsgs s.messages).Perm s.messages) := by
  refine ⟨rfl, ?_, ?_⟩
  · intro h
    by_cases hm : s.messages = []
    · simp [update_summary, hm]
    · have hle : (sortMsgs s.messages).length ≤ 5 := by rw [sortMsgs_length]; exact h
      simp only [update_summary]
      rw [if_neg hm, if_pos hle]
  · intro h
    have hm : s.messages ≠ [] := by
      intro hx; rw [hx] at h; simp at h
    have hnle : ¬ (sortMsgs s.messages).length ≤ 5 := by
      rw [sortMsgs_length]; omega
    refine ⟨?_, sortMsgs_sorted s.messages, sortMsgs_perm s.messages⟩
    simp only [update_summary]
    rw [if_neg hm, if_neg hnle]

/-- Witness for claim C4 at a concrete 6-message session presented out of
timestamp order. -/
theorem claim_C4_witness :
    5 < ([⟨"m4", "bot", 4⟩, ⟨"m1", "user", 1⟩, ⟨"m2", "bot", 2⟩, ⟨"m3", "user", 3⟩,
      ⟨"m5", "user", 5⟩, ⟨"m6", "bot", 6⟩] : List DbMessage).length ∧
    update_summary (fun p => p)
      (some ⟨none, [⟨"m4", "bot", 4⟩, ⟨"m1", "user", 1⟩, ⟨"m2", "bot", 2⟩,
        ⟨"m3", "user", 3⟩, ⟨"m5", "user", 5⟩, ⟨"m6", "bot", 6⟩]⟩) =
      some ⟨some (summaryPrompt "user: m1\n"), [⟨"m4", "bot", 4⟩, ⟨"m1", "user", 1⟩,
        ⟨"m2", "bot", 2⟩, ⟨"m3", "user", 3⟩, ⟨"m5", "user", 5⟩, ⟨"m6", "bot", 6⟩]⟩ := by
  refine ⟨by decide, ?_⟩
  have h := (claim_C4_update_summary (fun p => p)
    ⟨none, [⟨"m4", "bot", 4⟩, ⟨"m1", "user", 1⟩, ⟨"m2", "bot", 2⟩, ⟨"m3", "user", 3⟩,
      ⟨"m5", "user", 5⟩, ⟨"m6", "bot", 6⟩]⟩).2.2 (by decide)
  rw [h.1]
  rfl

/-- Claim C5: the bot message text persisted at the end of a streamed turn is
exactly the concatenation of the chunks yielded to the HTTP caller (the
marker-stripped text); at a concrete marker-bearing input it differs from the
raw model output. -/
theorem claim_C5_persisted_text (chunks : List (List Char)) :
    persistedBotText chunks = streamedText chunks ∧
    persistedBotText [['[', 'S', 'O', 'S', ']', ' ', 'o', 'k']] ≠
      (runGenerator [['[', 'S', 'O', 'S', ']', ' ', 'o', 'k']]).raw := by
  constructor
  · show (runGenerator chunks).clean = (runGenerator chunks).outs.flatten
    exact finishStream_clean _ (foldl_processChunk_clean chunks initGen rfl)
  · decide

/-- Claim C6: `get_chat_history` returns the session's messages sorted by
timestamp (a sorted permutation of the stored rows, 404 when the session is
missing), and `send_message` takes its prompt history as the last 5 messages
of the timestamp-sorted list. -/
theorem claim_C6_message_order (s : ChatSession) (ms : List DbMessage) :
    get_chat_history none = Except.error 404 ∧
    get_chat_history (some s) = Except.ok (sortMsgs s.messages, s.summary) ∧
    List.Pairwise (fun a b => a.timestamp ≤ b.timestamp) (sortMsgs s.messages) ∧
    (sortMsgs s.messages).Perm s.messages ∧
    recentMessages ms = (sortMsgs ms).drop ((sortMsgs ms).length - 5) ∧
    (recentMessages ms).length = min 5 ms.length ∧
    List.Pairwise (fun a b => a.timestamp ≤ b.timestamp) (recentMessages ms) ∧
    historyStr ms = String.intercalate "\n"
      ((recentMessages ms).map (fun m => m.sender ++ ": " ++ m.text)) := by
  refine ⟨rfl, rfl, sortMsgs_sorted s.messages, sortMsgs_perm s.messages, rfl, ?_, ?_, rfl⟩
  · show ((sortMsgs ms).drop ((sortMsgs ms).length - 5)).length = min 5 ms.length
    rw [List.length_drop, sortMsgs_length]
    omega
  · exact List.Pairwise.sublist (List.drop_sublist _ _) (sortMsgs_sorted ms)

/-- Claim C7: failed external calls inside web search become empty fallbacks:
`run_web_search` returns the empty string when the search raises or yields no
results, and `fetch_content` returns the empty string on a fetch or parse
failure and otherwise at most `max_chars` characters. -/
theorem claim_C7_web_fallbacks (textSearch : Except Unit (List SearchResult))
    (fetcher : String → String) (page : Except Unit (Option String)) (maxChars : Nat) :
    run_web_search (Except.error ()) textSearch fetcher = "" ∧
    run_web_search (Except.ok []) (Except.error ()) fetcher = "" ∧
    run_web_search (Except.ok []) (Except.ok []) fetcher = "" ∧
    fetch_content (Except.error ()) maxChars = "" ∧
    fetch_content (Except.ok none) maxChars = "" ∧
    (fetch_content page maxChars).length ≤ maxChars := by
  refine ⟨rfl, rfl, rfl, rfl, rfl, ?_⟩
  match page with
  | Except.error _ => simp [fetch_content]
  | Except.ok none => simp [fetch_content]
  | Except.ok (some text) =>
      show (String.mk (text.data.take maxChars)).length ≤ maxChars
      show (text.data.take maxChars).length ≤ maxChars
      rw [List.length_take]
      exact min_le_left _ _

/-- Claim C8: when the routing decision call raises, the pipeline falls back
to the "CHAT" default, so no web search runs and the web context is empty. -/
theorem claim_C8_routing_fallback (searcher : Unit → String) :
    route_query (Except.error ()) = "CHAT" ∧
    route_query (Except.error ()) ≠ "WEB" ∧
    webContextFor (route_query (Except.error ())) searcher = "" := by
  refine ⟨rfl, by decide, ?_⟩
  show webContextFor "CHAT" searcher = ""
  simp [webContextFor]

/-- Claim C9: with complete Twilio credentials `execute_emergency_trigger`
spawns a daemon worker thread whose alert sends exactly one SMS and places a
voice call if and only if the severity is "critical", returning the
alert-triggered instruction string immediately. -/
theorem claim_C9_twilio_alert (c : TwilioCreds) (severity : String)
    (location : Option String) (h : credsComplete c = true) :
    (execute_emergency_trigger c severity location).1 = triggeredMsg ∧
    ∃ th : SpawnedThread,
      (execute_emergency_trigger c severity location).2 = some th ∧
      th.daemon = true ∧
      (th.actions.filter isSmsAction).length = 1 ∧
      ((th.actions.filter isCallAction).length = if severity = "critical" then 1 else 0) := by
  unfold execute_emergency_trigger
  rw [if_pos h]
  refine ⟨rfl, _, rfl, rfl, ?_, ?_⟩
  · unfold _send_twilio_alert
    by_cases hs : severity = "critical" <;>
      simp [hs, isSmsAction, isCallAction, List.filter]
  · unfold _send_twilio_alert
    by_cases hs : severity = "critical" <;>
      simp [hs, isSmsAction, isCallAction, List.filter]

/-- Witness for claim C9 with concrete complete credentials and critical
severity. -/
theorem claim_C9_witness :
    credsComplete ⟨some "sid", some "secret", some "+15550100", some "+15550111"⟩ = true ∧
    ((execute_emergency_trigger ⟨some "sid", some "secret", some "+15550100",
        some "+15550111"⟩ "critical" (some "Ward 3")).1 = triggeredMsg ∧
      ∃ th : SpawnedThread,
        (execute_emergency_trigger ⟨some "sid", some "secret", some "+15550100",
          some "+15550111"⟩ "critical" (some "Ward 3")).2 = some th ∧
        th.daemon = true ∧
        (th.actions.filter isSmsAction).length = 1 ∧
        ((th.actions.filter isCallAction).length = if "critical" = "critical" then 1 else 0)) :=
  ⟨by decide,
    claim_C9_twilio_alert ⟨some "sid", some "secret", some "+15550100", some "+15550111"⟩
      "critical" (some "Ward 3") (by decide)⟩

/-- Claim C10: `execute_emergency_trigger` returns one of exactly two strings,
neither containing "Failed", so `trigger_emergency` never raises its 500 error
and answers success for every request, including when credentials are missing
and no alert thread is spawned. -/
theorem claim_C10_trigger_success (c : TwilioCreds) (req : EmergencyRequest) :
    ((execute_emergency_trigger c req.severity req.location).1 = missingMsg ∨
      (execute_emergency_trigger c req.severity req.location).1 = triggeredMsg) ∧
    occursInStr "Failed" missingMsg = false ∧
    occursInStr "Failed" triggeredMsg = false ∧
    trigger_emergency c req =
      Except.ok ("success", (execute_emergency_trigger c req.severity req.location).1) ∧
    (credsComplete c = false →
      (execute_emergency_trigger c req.severity req.location).2 = none ∧
      trigger_emergency c req = Except.ok ("success", missingMsg)) := by
  by_cases h : credsComplete c = true
  · refine ⟨Or.inr ?_, by decide, by decide, ?_, ?_⟩
    · simp [execute_emergency_trigger, h]
    · unfold trigger_emergency
      simp only [execute_emergency_trigger, h, if_true]
      rw [if_neg (by simp [show occursInStr "Failed" triggeredMsg = false by decide])]
    · intro hf
      rw [h] at hf
      exact absurd hf (by simp)
  · have h' : credsComplete c = false := by simpa using h
    refine ⟨Or.inl ?_, by decide, by decide, ?_, ?_⟩
    · simp [execute_emergency_trigger, h']
    · unfold trigger_emergency
      simp only [execute_emergency_trigger, h', Bool.false_eq_true, if_false]
      rw [if_neg (by simp [show occursInStr "Failed" missingMsg = false by decide])]
    · intro _
      constructor
      · simp [execute_emergency_trigger, h']
      · unfold trigger_emergency
        simp only [execute_emergency_trigger, h', Bool.false_eq_true, if_false]
        rw [if_neg (by simp [show occursInStr "Failed" missingMsg = false by decide])]

/-- Witness for claim C10 with missing credentials. -/
theorem claim_C10_witness :
    credsComplete ⟨none, none, none, none⟩ = false ∧
    ((execute_emergency_trigger (⟨none, none, none, none⟩ : TwilioCreds)
        ("sos" : String) (none : Option String)).2 = none ∧
      trigger_emergency ⟨none, none, none, none⟩ ⟨"sos", "sos", none⟩ =
        Except.ok ("success", missingMsg)) :=
  ⟨by decide,
    (claim_C10_trigger_success ⟨none, none, none, none⟩ ⟨"sos", "sos", none⟩).2.2.2.2
      (by decide)⟩
